import Mathlib

/-!
Verification of the job orchestration and progress-streaming core of
`app.py` (a Flask media-download service).  Every definition below is a
shallow embedding of the corresponding Python function in `src/app.py`;
line numbers in comments refer to that file.

Time values (seconds) and byte counts are modelled as rationals; Python's
`round(x, 2)` is modelled by `round2` (exact tie-breaking between Python's
float half-even rounding and Mathlib's `round` differs, but every claim
below uses the same rounding on both sides, so the choice is immaterial).
-/

namespace YTD

/-- Job status strings used by `app.py` (`queued`, `downloading`,
`postprocessing`, `done`, `error`). -/
inductive Status
  | queued
  | downloading
  | postprocessing
  | done
  | error
deriving DecidableEq, Repr

/-- `done` and `error` are the terminal statuses (checked in
`event_stream`, app.py line 214: `update.get('status') in ('done', 'error')`). -/
def Status.isTerminal : Status → Bool
  | .done => true
  | .error => true
  | _ => false

/-- The `progress` sub-dictionary of a job record: `{"percent": 0}` at
creation (line 126), `{'percent', 'eta', 'speed'}` while downloading
(line 93), `{'text': ...}` while postprocessing (line 95). -/
inductive ProgressVal
  | pct (percent : ℚ)
  | bytes (percent eta speed : ℚ)
  | text (t : String)
deriving DecidableEq, Repr

/-- A job record, as created at app.py lines 124-133:
`{"status", "progress", "filename", "error", "created_at", "type",
"workdir", "ip"}`. -/
structure JobRecord where
  status : Status
  progress : ProgressVal
  filename : Option String
  error : Option String
  created_at : ℤ
  type : String
  workdir : String
  ip : String
deriving DecidableEq, Repr

/-- The keyword fields a call to `job_update(job_id, **fields)` may carry;
`none` means the key is absent from the call.  The code only ever passes
`status`, `progress`, `filename` and `error`. -/
structure JobFields where
  status : Option Status := none
  progress : Option ProgressVal := none
  filename : Option String := none
  error : Option String := none
deriving DecidableEq, Repr

/-- `job.update(fields)` (app.py line 73): a plain dictionary merge — every
key present in `fields` overwrites the record's value, present or not; no
guard of any kind is applied to `status`. -/
def applyFields (j : JobRecord) (f : JobFields) : JobRecord :=
  { j with
    status := f.status.getD j.status
    progress := f.progress.getD j.progress
    filename := match f.filename with | some v => some v | none => j.filename
    error := match f.error with | some v => some v | none => j.error }

/-- Python truthiness coercion used by `a or b` on an optional number:
`None` and `0` are falsy (app.py lines 86-92). -/
def orFalsy (a : Option ℚ) (b : ℚ) : ℚ :=
  match a with
  | some x => if x = 0 then b else x
  | none => b

/-- Python's `round(x, 2)` on a rational. -/
def round2 (x : ℚ) : ℚ := (round (100 * x) : ℤ) / 100

/-- The dictionary `d` passed by yt-dlp to a progress hook; only the keys
read by `app.py` are modelled.  `none` = key absent. -/
structure HookDict where
  status : String
  total_bytes : Option ℚ := none
  total_bytes_estimate : Option ℚ := none
  downloaded_bytes : Option ℚ := none
  speed : Option ℚ := none
  eta : Option ℚ := none
deriving DecidableEq, Repr

/-- `total = d.get('total_bytes') or d.get('total_bytes_estimate') or 0`
(app.py line 86). -/
def hookTotal (d : HookDict) : ℚ :=
  orFalsy d.total_bytes (orFalsy d.total_bytes_estimate 0)

/-- `downloaded = d.get('downloaded_bytes') or 0` (app.py line 87). -/
def hookDownloaded (d : HookDict) : ℚ := orFalsy d.downloaded_bytes 0

/-- The hook produced by `progress_hook_factory(job_id)` (app.py lines
82-96), with the closure over `job_id` factored out: it returns the
`**fields` of the single `job_update` call the hook makes, or `none` when
the hook does nothing (status neither `downloading` nor `finished`). -/
def progress_hook (d : HookDict) : Option JobFields :=
  if d.status = "downloading" then
    let total := hookTotal d
    let downloaded := hookDownloaded d
    let percent : ℚ := if total = 0 then 0 else round2 (downloaded / total * 100)
    let speed := orFalsy d.speed 0
    let eta := orFalsy d.eta 0
    some { status := some .downloading
           progress := some (.bytes percent eta speed) }
  else if d.status = "finished" then
    some { status := some .postprocessing
           progress := some (.text "Merging/processing...") }
  else
    none

/-- The percent formula exactly as the spec states it:
`round(100 * downloaded/total, 2)` when `total` is known and nonzero,
else `0`.  (Under the Python falsy coercion of lines 86-87, "known and
nonzero" is exactly `hookTotal d ≠ 0`.) -/
def specPercent (total downloaded : ℚ) : ℚ :=
  if total ≠ 0 then round2 (100 * downloaded / total) else 0

/-- **C6** — For every `downloading` progress callback from the Extractor,
the recorded percent equals `round(100 * downloaded/total, 2)` when
`total` is known and nonzero, and `0` otherwise (total unknown or zero). -/
theorem C6_percent (d : HookDict) (h : d.status = "downloading") :
    progress_hook d =
      some { status := some .downloading
             progress := some (.bytes (specPercent (hookTotal d) (hookDownloaded d))
                                (orFalsy d.eta 0) (orFalsy d.speed 0))
             filename := none
             error := none } := by
  unfold progress_hook specPercent
  rw [if_pos h]
  by_cases ht : hookTotal d = 0
  · simp [ht]
  · simp only [ht, if_neg ht, ite_not, if_neg, not_true_eq_false, if_false]
    have : hookDownloaded d / hookTotal d * 100 = 100 * hookDownloaded d / hookTotal d := by
      rw [div_mul_eq_mul_div, mul_comm]
    simp [ht, this]

/-- Witness for C6 at a concrete callback: 50 of 200 bytes downloaded
gives 25%. -/
theorem C6_percent_witness :
    progress_hook { status := "downloading", total_bytes := some 200,
                    downloaded_bytes := some 50 } =
      some { status := some .downloading
             progress := some (.bytes (specPercent 200 50) 0 0)
             filename := none
             error := none } :=
  C6_percent { status := "downloading", total_bytes := some 200,
               downloaded_bytes := some 50 } rfl

/-! ### Worker (app.py lines 136-193) -/

/-- One run of the Extractor (`ydl.extract_info`, app.py line 172) from the
Worker's point of view: the progress callbacks it issued, whether it
returned normally (`ok = true`) or raised (message `errMsg`), the contents
of the job's workdir after it returned (name and `st_size` of each entry of
`pathlib.Path(workdir).iterdir()`), the name `ydl.prepare_filename(info)`
yields, and the filesystem check `Path.exists`. -/
structure ExtractRun where
  hooks : List HookDict
  ok : Bool
  errMsg : String
  workdirFiles : List (String × Nat)
  preparedName : String
  fileExists : String → Bool

/-- Python's `max(files, key=size)` keeps the first element of maximal
size. -/
def maxBySize (f : String × Nat) (fs : List (String × Nat)) : String × Nat :=
  fs.foldl (fun best p => if best.2 < p.2 then p else best) f

/-- app.py lines 173-177: the file recorded as the artifact — the largest
file in the workdir when the listing is nonempty, else the extractor's
prepared filename. -/
def chooseDownloaded (files : List (String × Nat)) (prepared : String) : String :=
  match files with
  | [] => prepared
  | f :: fs => (maxBySize f fs).1

/-- app.py lines 178-189: the terminal `job_update` of a worker run —
`done` + filename when the chosen file exists, otherwise the
`RuntimeError("File not found after download")` is raised and caught, and
any exception (from the Extractor or the missing-file check) is recorded
as `error` + message. -/
def finalUpdate (ext : ExtractRun) : JobFields :=
  if ext.ok then
    let f := chooseDownloaded ext.workdirFiles ext.preparedName
    if ext.fileExists f then { status := some .done, filename := some f }
    else { status := some .error, error := some "File not found after download" }
  else { status := some .error, error := some ext.errMsg }

/-- The complete sequence of `job_update` calls one worker run issues:
`status='downloading'` first (app.py line 169), then one update per
effective hook callback (lines 84-95), then the terminal update. -/
def workerUpdates (ext : ExtractRun) : List JobFields :=
  ({ status := some .downloading } : JobFields)
    :: (ext.hooks.filterMap progress_hook ++ [finalUpdate ext])

/-- The record created by `start` (app.py lines 124-133). -/
def initialJob (out_type workdir ip : String) (now : ℤ) : JobRecord :=
  { status := .queued
    progress := .pct 0
    filename := none
    error := none
    created_at := now
    type := out_type
    workdir := workdir
    ip := ip }

/-- All states a record passes through under a sequence of updates,
initial state included. -/
def statesFrom (j : JobRecord) : List JobFields → List JobRecord
  | [] => [j]
  | f :: fs => j :: statesFrom (applyFields j f) fs

/-- All states the job record passes through during one worker run. -/
def workerStates (j0 : JobRecord) (ext : ExtractRun) : List JobRecord :=
  statesFrom j0 (workerUpdates ext)

/-- The job record after the worker run finished. -/
def finalJob (j0 : JobRecord) (ext : ExtractRun) : JobRecord :=
  List.foldl applyFields j0 (workerUpdates ext)

/-- The §3 invariant: `filename` is set iff status is `done`, `error` is
set iff status is `error`. -/
def statusFieldInv (j : JobRecord) : Prop :=
  (j.filename.isSome = true ↔ j.status = .done) ∧
  (j.error.isSome = true ↔ j.status = .error)

/-- A record that has not reached a terminal update yet: no filename, no
error message, non-terminal status. -/
def PreTerminal (j : JobRecord) : Prop :=
  j.filename = none ∧ j.error = none ∧ j.status.isTerminal = false

theorem preTerminal_inv (j : JobRecord) (hj : PreTerminal j) : statusFieldInv j := by
  obtain ⟨h1, h2, h3⟩ := hj
  cases hs : j.status <;> simp_all [statusFieldInv, Status.isTerminal]

theorem progress_hook_fields (d : HookDict) (f : JobFields)
    (h : progress_hook d = some f) :
    f.filename = none ∧ f.error = none ∧
      (f.status = some .downloading ∨ f.status = some .postprocessing) := by
  unfold progress_hook at h
  split_ifs at h
  · injection h with h
    subst h
    exact ⟨rfl, rfl, Or.inl rfl⟩
  · injection h with h
    subst h
    exact ⟨rfl, rfl, Or.inr rfl⟩

theorem preTerminal_apply_hook (j : JobRecord) (d : HookDict) (f : JobFields)
    (hf : progress_hook d = some f) (hj : PreTerminal j) :
    PreTerminal (applyFields j f) := by
  obtain ⟨h1, h2, h3⟩ := progress_hook_fields d f hf
  obtain ⟨j1, j2, j3⟩ := hj
  refine ⟨?_, ?_, ?_⟩
  · simp [applyFields, h1, j1]
  · simp [applyFields, h2, j2]
  · rcases h3 with h | h <;> simp [applyFields, h, Status.isTerminal]

theorem preTerminal_foldl_hooks (hooks : List HookDict) (j : JobRecord)
    (hj : PreTerminal j) :
    PreTerminal (List.foldl applyFields j (hooks.filterMap progress_hook)) := by
  induction hooks generalizing j with
  | nil => exact hj
  | cons d rest ih =>
    cases hf : progress_hook d with
    | none =>
      rw [List.filterMap_cons_none hf]
      exact ih j hj
    | some f =>
      rw [List.filterMap_cons_some hf, List.foldl_cons]
      exact ih _ (preTerminal_apply_hook j d f hf hj)

theorem statesFrom_hooks_pre (hooks : List HookDict) (j : JobRecord)
    (hj : PreTerminal j) :
    ∀ s ∈ statesFrom j (hooks.filterMap progress_hook), PreTerminal s := by
  induction hooks generalizing j with
  | nil =>
    intro s hs
    simp [statesFrom] at hs
    subst hs
    exact hj
  | cons d rest ih =>
    cases hf : progress_hook d with
    | none =>
      rw [List.filterMap_cons_none hf]
      exact ih j hj
    | some f =>
      intro s hs
      rw [List.filterMap_cons_some hf] at hs
      simp only [statesFrom, List.mem_cons] at hs
      rcases hs with rfl | hs
      · exact hj
      · exact ih (applyFields j f) (preTerminal_apply_hook j d f hf hj) s hs

theorem statesFrom_concat (l : List JobFields) (j : JobRecord) (fl : JobFields) :
    statesFrom j (l ++ [fl]) =
      statesFrom j l ++ [applyFields (List.foldl applyFields j l) fl] := by
  induction l generalizing j with
  | nil => rfl
  | cons f fs ih => simp [statesFrom, ih, List.foldl_cons]

theorem finalJob_eq (j0 : JobRecord) (ext : ExtractRun) :
    finalJob j0 ext =
      applyFields
        (List.foldl applyFields
          (applyFields j0 { status := some .downloading })
          (ext.hooks.filterMap progress_hook))
        (finalUpdate ext) := by
  simp [finalJob, workerUpdates, List.foldl_cons, List.foldl_append]

theorem workerStates_eq (j0 : JobRecord) (ext : ExtractRun) :
    workerStates j0 ext =
      (j0 :: statesFrom (applyFields j0 { status := some .downloading })
          (ext.hooks.filterMap progress_hook)) ++ [finalJob j0 ext] := by
  rw [finalJob_eq]
  simp [workerStates, workerUpdates, statesFrom, statesFrom_concat,
    List.foldl_cons, List.foldl_append]

theorem applyFinal_inv (j : JobRecord) (ext : ExtractRun) (hj : PreTerminal j) :
    statusFieldInv (applyFields j (finalUpdate ext)) := by
  obtain ⟨h1, h2, h3⟩ := hj
  by_cases hok : ext.ok = true
  · by_cases hex : ext.fileExists (chooseDownloaded ext.workdirFiles ext.preparedName) = true
    · simp [finalUpdate, hok, hex, applyFields, statusFieldInv, h1, h2]
    · simp [finalUpdate, hok, hex, applyFields, statusFieldInv, h1, h2]
  · simp [finalUpdate, hok, applyFields, statusFieldInv, h1, h2]

theorem applyFinal_ok_exists (j : JobRecord) (ext : ExtractRun)
    (hok : ext.ok = true)
    (hex : ext.fileExists (chooseDownloaded ext.workdirFiles ext.preparedName) = true) :
    (applyFields j (finalUpdate ext)).status = .done ∧
    (applyFields j (finalUpdate ext)).filename =
      some (chooseDownloaded ext.workdirFiles ext.preparedName) := by
  simp [finalUpdate, hok, hex, applyFields]

theorem applyFinal_ok_missing (j : JobRecord) (ext : ExtractRun)
    (hjf : j.filename = none) (hok : ext.ok = true)
    (hex : ext.fileExists (chooseDownloaded ext.workdirFiles ext.preparedName) = false) :
    (applyFields j (finalUpdate ext)).status = .error ∧
    (applyFields j (finalUpdate ext)).error = some "File not found after download" ∧
    (applyFields j (finalUpdate ext)).filename = none := by
  simp [finalUpdate, hok, hex, applyFields, hjf]

/-- **C4** — along every worker run (arbitrary hook callbacks, arbitrary
extractor outcome), every state of the job record satisfies:
`filename` set iff status `done`, `error` set iff status `error`; hence
neither is set before a terminal status and exactly one is set once the
status is terminal. -/
theorem C4_invariant (out_type workdir ip : String) (now : ℤ) (ext : ExtractRun) :
    ∀ s ∈ workerStates (initialJob out_type workdir ip now) ext, statusFieldInv s := by
  intro s hs
  rw [workerStates_eq] at hs
  have hpre1 : PreTerminal
      (applyFields (initialJob out_type workdir ip now) { status := some .downloading }) :=
    ⟨rfl, rfl, rfl⟩
  simp only [List.mem_append, List.mem_cons, List.not_mem_nil, or_false] at hs
  rcases hs with (rfl | hs) | rfl
  · exact preTerminal_inv _ ⟨rfl, rfl, rfl⟩
  · exact preTerminal_inv _ (statesFrom_hooks_pre _ _ hpre1 s hs)
  · rw [finalJob_eq]
    exact applyFinal_inv _ ext (preTerminal_foldl_hooks _ _ hpre1)

/-- A concrete successful extractor run used by witnesses: one progress
callback, one 5-byte file `a.mp4` in the workdir, file present on disk. -/
def extOk : ExtractRun :=
  { hooks := [{ status := "downloading", total_bytes := some 200,
                downloaded_bytes := some 50 }]
    ok := true
    errMsg := ""
    workdirFiles := [("a.mp4", 5)]
    preparedName := "a.mp4"
    fileExists := fun _ => true }

/-- Witness for C4: the final state of a concrete successful run is in the
run's state list and satisfies the invariant. -/
theorem C4_invariant_witness :
    finalJob (initialJob "mp4" "w" "1.2.3.4" 0) extOk ∈
        workerStates (initialJob "mp4" "w" "1.2.3.4" 0) extOk ∧
    statusFieldInv (finalJob (initialJob "mp4" "w" "1.2.3.4" 0) extOk) :=
  ⟨by simp [workerStates_eq],
   C4_invariant "mp4" "w" "1.2.3.4" 0 extOk _ (by simp [workerStates_eq])⟩

/-- **C7** — with `ext.ok = true` (the Extractor reported success), the
worker records `done` exactly when the independently checked file exists;
when the file is absent the job ends in `error` with the recorded failure
message, never `done`. -/
theorem C7_verify (out_type workdir ip : String) (now : ℤ) (ext : ExtractRun)
    (hok : ext.ok = true) :
    (ext.fileExists (chooseDownloaded ext.workdirFiles ext.preparedName) = true →
        (finalJob (initialJob out_type workdir ip now) ext).status = .done ∧
        (finalJob (initialJob out_type workdir ip now) ext).filename =
          some (chooseDownloaded ext.workdirFiles ext.preparedName)) ∧
    (ext.fileExists (chooseDownloaded ext.workdirFiles ext.preparedName) = false →
        (finalJob (initialJob out_type workdir ip now) ext).status = .error ∧
        (finalJob (initialJob out_type workdir ip now) ext).error =
          some "File not found after download" ∧
        (finalJob (initialJob out_type workdir ip now) ext).filename = none) := by
  have h1 : (List.foldl applyFields
      (applyFields (initialJob out_type workdir ip now) { status := some .downloading })
      (ext.hooks.filterMap progress_hook)).filename = none :=
    (preTerminal_foldl_hooks ext.hooks
      (applyFields (initialJob out_type workdir ip now) { status := some .downloading })
      ⟨rfl, rfl, rfl⟩).1
  rw [finalJob_eq]
  exact ⟨fun hex => applyFinal_ok_exists _ ext hok hex,
         fun hex => applyFinal_ok_missing _ ext h1 hok hex⟩

/-- Witness for C7: on the concrete run `extOk` the artifact exists and the
job ends `done` with the artifact recorded. -/
theorem C7_verify_witness :
    extOk.ok = true ∧
    (extOk.fileExists (chooseDownloaded extOk.workdirFiles extOk.preparedName) = true →
        (finalJob (initialJob "mp4" "w" "1.2.3.4" 0) extOk).status = .done ∧
        (finalJob (initialJob "mp4" "w" "1.2.3.4" 0) extOk).filename =
          some (chooseDownloaded extOk.workdirFiles extOk.preparedName)) ∧
    (extOk.fileExists (chooseDownloaded extOk.workdirFiles extOk.preparedName) = false →
        (finalJob (initialJob "mp4" "w" "1.2.3.4" 0) extOk).status = .error ∧
        (finalJob (initialJob "mp4" "w" "1.2.3.4" 0) extOk).error =
          some "File not found after download" ∧
        (finalJob (initialJob "mp4" "w" "1.2.3.4" 0) extOk).filename = none) :=
  ⟨rfl, C7_verify "mp4" "w" "1.2.3.4" 0 extOk rfl⟩

/-! ### Progress queues and the job store (app.py lines 34-36, 69-80, 134) -/

/-- A `queue.Queue(maxsize=...)` of job-record snapshots; `buf` lists the
unread events in FIFO order, oldest first.  `start` creates every queue
with `maxsize=100` (app.py line 134). -/
structure BQueue where
  buf : List JobRecord
  maxsize : Nat
deriving DecidableEq, Repr

/-- `q.put_nowait(e)` as called under `except queue.Full: pass` (app.py
lines 76-80): `put_nowait` raises `Full` when `maxsize <= qsize` and the
handler swallows the exception, so on a full queue the NEW event is
dropped and the buffer is unchanged; otherwise the event joins the back. -/
def put_nowait (q : BQueue) (e : JobRecord) : BQueue :=
  if q.maxsize ≤ q.buf.length then q else { q with buf := q.buf ++ [e] }

/-- Python dict lookup on an association list (`JOBS.get`,
`PROGRESS_QUEUES.get`). -/
def alGet {α : Type} (l : List (String × α)) (k : String) : Option α :=
  (l.find? (fun p => p.1 == k)).map Prod.snd

/-- Python dict assignment for a key already present. -/
def alSet {α : Type} (l : List (String × α)) (k : String) (v : α) : List (String × α) :=
  l.map (fun p => if p.1 == k then (k, v) else p)

/-- The two process-wide tables (app.py lines 35-36): `JOBS` and
`PROGRESS_QUEUES`, both keyed by job id. -/
structure Stores where
  jobs : List (String × JobRecord)
  queues : List (String × BQueue)
deriving DecidableEq, Repr

/-- `job_update(job_id, **fields)` (app.py lines 69-80): a no-op when the
job no longer exists; otherwise the fields are merged into the record and
a snapshot (`job.copy()`) of the merged record is pushed onto the job's
progress queue with `put_nowait`, the snapshot being dropped when the
queue is full. -/
def job_update (s : Stores) (job_id : String) (f : JobFields) : Stores :=
  match alGet s.jobs job_id with
  | none => s
  | some job =>
    let merged := applyFields job f
    let jobs := alSet s.jobs job_id merged
    match alGet s.queues job_id with
    | none => { jobs := jobs, queues := s.queues }
    | some q => { jobs := jobs, queues := alSet s.queues job_id (put_nowait q merged) }

theorem alGet_alSet {α : Type} (l : List (String × α)) (k : String) (v : α)
    (h : (alGet l k).isSome = true) : alGet (alSet l k v) k = some v := by
  induction l with
  | nil => simp [alGet] at h
  | cons p rest ih =>
    by_cases hk : (p.1 == k) = true
    · simp [alGet, alSet, List.find?, hk]
    · have heq : (p.1 == k) = false := by
        cases hb : (p.1 == k) with
        | false => rfl
        | true => exact absurd hb hk
      have hg : ∀ (r : List (String × α)), alGet (p :: r) k = alGet r k := by
        intro r
        simp [alGet, List.find?, heq]
      have hne : p.1 ≠ k := by simpa using hk
      have hs : alSet (p :: rest) k v = p :: alSet rest k v := by
        simp [alSet, hne]
      rw [hg rest] at h
      rw [hs, hg (alSet rest k v)]
      exact ih h

/-- A mid-run snapshot used by the C2 counterexample. -/
def snap0 : JobRecord :=
  { status := .downloading
    progress := .pct 0
    filename := none
    error := none
    created_at := 0
    type := "mp4"
    workdir := "w"
    ip := "1.2.3.4" }

/-- A store holding one job whose progress queue is full: 100 unread
snapshots in a queue created with `maxsize=100`. -/
def fullStore : Stores :=
  { jobs := [("j", snap0)]
    queues := [("j", { buf := List.replicate 100 snap0, maxsize := 100 })] }

/-- **C2 counterexample** — publishing on a full buffer drops the NEW
event, not the oldest: the queue is left exactly as it was (all 100 old
snapshots retained) and the newly published snapshot is absent from it. -/
theorem C2_cex :
    (job_update fullStore "j" { status := some .postprocessing }).queues =
        fullStore.queues ∧
    ({ snap0 with status := .postprocessing } : JobRecord) ∉
      (List.replicate 100 snap0 : List JobRecord) := by
  constructor
  · rfl
  · intro hmem
    have hp := congrArg JobRecord.status (List.eq_of_mem_replicate hmem)
    simp [snap0] at hp

/-- **C2 amended** — `job_update`'s publish is non-blocking, but when the
bounded buffer is full the NEWLY published snapshot is dropped and the
buffer (its oldest entry included) is unchanged; the newest event is
retained, appended at the back, only when the buffer has room. -/
theorem C2_amended (s : Stores) (id : String) (f : JobFields)
    (j : JobRecord) (q : BQueue)
    (hj : alGet s.jobs id = some j) (hq : alGet s.queues id = some q) :
    alGet (job_update s id f).queues id = some (put_nowait q (applyFields j f)) ∧
    (q.maxsize ≤ q.buf.length → put_nowait q (applyFields j f) = q) ∧
    (q.buf.length < q.maxsize →
      (put_nowait q (applyFields j f)).buf = q.buf ++ [applyFields j f]) := by
  refine ⟨?_, ?_, ?_⟩
  · rw [job_update, hj, hq]
    exact alGet_alSet s.queues id _ (by rw [hq]; rfl)
  · intro hfull
    simp [put_nowait, hfull]
  · intro hroom
    simp [put_nowait, Nat.not_le.mpr hroom]

/-- A store with one job and an empty (fresh) progress queue. -/
def freshStore : Stores :=
  { jobs := [("j", snap0)]
    queues := [("j", { buf := [], maxsize := 100 })] }

/-- Witness for C2 amended: on a fresh queue the published snapshot is
appended at the back. -/
theorem C2_amended_witness :
    alGet freshStore.jobs "j" = some snap0 ∧
    alGet freshStore.queues "j" = some { buf := [], maxsize := 100 } ∧
    (alGet (job_update freshStore "j" { status := some .postprocessing }).queues "j" =
        some (put_nowait { buf := [], maxsize := 100 }
          (applyFields snap0 { status := some .postprocessing })) ∧
     ((100 : Nat) ≤ ([] : List JobRecord).length →
        put_nowait { buf := [], maxsize := 100 }
          (applyFields snap0 { status := some .postprocessing }) =
          { buf := [], maxsize := 100 }) ∧
     (([] : List JobRecord).length < 100 →
        (put_nowait { buf := [], maxsize := 100 }
          (applyFields snap0 { status := some .postprocessing })).buf =
          ([] : List JobRecord) ++ [applyFields snap0 { status := some .postprocessing }])) :=
  ⟨rfl, rfl, C2_amended freshStore "j" { status := some .postprocessing }
    snap0 { buf := [], maxsize := 100 } rfl rfl⟩

/-- A finished job record used by the C5 counterexample. -/
def doneJob : JobRecord :=
  { status := .done
    progress := .pct 100
    filename := some "video.mp4"
    error := none
    created_at := 0
    type := "mp4"
    workdir := "w"
    ip := "1.2.3.4" }

/-- **C5 counterexample** — the Job Record Store's update applies no
state-machine guard: an update carrying a non-terminal status, issued
after the job reached the terminal status `done`, reverts the stored
status to `downloading`. -/
theorem C5_cex :
    doneJob.status.isTerminal = true ∧
    alGet (job_update { jobs := [("jd", doneJob)], queues := [] } "jd"
        { status := some .downloading }).jobs "jd" =
      some { doneJob with status := .downloading } ∧
    Status.downloading.isTerminal = false :=
  ⟨rfl, rfl, rfl⟩

theorem applyFinal_terminal (j : JobRecord) (ext : ExtractRun) :
    (applyFields j (finalUpdate ext)).status.isTerminal = true := by
  by_cases hok : ext.ok = true
  · by_cases hex : ext.fileExists (chooseDownloaded ext.workdirFiles ext.preparedName) = true <;>
      simp [finalUpdate, hok, hex, applyFields, Status.isTerminal]
  · simp [finalUpdate, hok, applyFields, Status.isTerminal]

/-- **C5 amended** — `job_update` itself merges unconditionally (an
explicit status in the fields always wins, terminal or not), but the
worker's own update sequence places its single terminal update last:
along every worker run the job's status is non-terminal at every state
except the final one, which is terminal — so a terminal status is never
exited during an actual run. -/
theorem C5_amended (out_type workdir ip : String) (now : ℤ) (ext : ExtractRun) :
    (∀ s ∈ (workerStates (initialJob out_type workdir ip now) ext).dropLast,
        s.status.isTerminal = false) ∧
    (workerStates (initialJob out_type workdir ip now) ext).getLast? =
      some (finalJob (initialJob out_type workdir ip now) ext) ∧
    (finalJob (initialJob out_type workdir ip now) ext).status.isTerminal = true := by
  refine ⟨?_, ?_, ?_⟩
  · intro s hs
    rw [workerStates_eq, List.dropLast_concat] at hs
    simp only [List.mem_cons] at hs
    rcases hs with rfl | hs
    · rfl
    · exact (statesFrom_hooks_pre ext.hooks
        (applyFields (initialJob out_type workdir ip now) { status := some .downloading })
        ⟨rfl, rfl, rfl⟩ s hs).2.2
  · rw [workerStates_eq]
    exact List.getLast?_concat _
  · rw [finalJob_eq]
    exact applyFinal_terminal _ ext

/-! ### SSE progress stream (app.py lines 198-232) -/

/-- The public view of a job record: every field of the record except
`workdir`. -/
structure PubRecord where
  status : Status
  progress : ProgressVal
  filename : Option String
  error : Option String
  created_at : ℤ
  type : String
  ip : String
deriving DecidableEq, Repr

/-- `jsonify_sse(obj)` (app.py lines 227-232): copies the record, removes
the `workdir` key (`o.pop('workdir', None)`) and serializes the rest. -/
def jsonify_sse (j : JobRecord) : PubRecord :=
  { status := j.status
    progress := j.progress
    filename := j.filename
    error := j.error
    created_at := j.created_at
    type := j.type
    ip := j.ip }

/-- One message of the `text/event-stream` response: a serialized job
snapshot, or the keep-alive written on a 60-second `queue.Empty` timeout. -/
inductive SseMsg
  | data (p : PubRecord)
  | ping
deriving DecidableEq, Repr

/-- The generator's read loop (app.py lines 210-218): each `q.get(timeout=60)`
either returns an event (`some u`) — which is yielded, the loop breaking
just after when the event's status is terminal — or times out (`none`),
upon which a keep-alive is yielded and the loop continues.  The argument
lists what the successive `q.get` calls produce; the returned flag tells
whether the loop terminated (`false` = after the trace the generator is
still waiting on the queue). -/
def streamLoop : List (Option JobRecord) → List SseMsg × Bool
  | [] => ([], false)
  | none :: rest =>
      let r := streamLoop rest
      (SseMsg.ping :: r.1, r.2)
  | some u :: rest =>
      if u.status.isTerminal then ([SseMsg.data (jsonify_sse u)], true)
      else
        let r := streamLoop rest
        (SseMsg.data (jsonify_sse u) :: r.1, r.2)

/-- `event_stream` (app.py lines 207-218): the initial state is sent
first, then the read loop runs. -/
def event_stream (init : JobRecord) (gets : List (Option JobRecord)) :
    List SseMsg × Bool :=
  let r := streamLoop gets
  (SseMsg.data (jsonify_sse init) :: r.1, r.2)

theorem streamLoop_closes (gets : List (Option JobRecord))
    (h : ∃ u, some u ∈ gets ∧ u.status.isTerminal = true) :
    (streamLoop gets).2 = true := by
  induction gets with
  | nil =>
    obtain ⟨u, hu, _⟩ := h
    simp at hu
  | cons g rest ih =>
    obtain ⟨u, hu, hut⟩ := h
    cases g with
    | none =>
      have hmem : some u ∈ rest := by
        rcases List.mem_cons.mp hu with heq | hmem
        · exact absurd heq (by simp)
        · exact hmem
      simpa [streamLoop] using ih ⟨u, hmem, hut⟩
    | some w =>
      by_cases hw : w.status.isTerminal = true
      · simp [streamLoop, hw]
      · have hmem : some u ∈ rest := by
          rcases List.mem_cons.mp hu with heq | hmem
          · obtain rfl : u = w := Option.some_injective _ heq
            exact absurd hut hw
          · exact hmem
        simpa [streamLoop, hw] using ih ⟨u, hmem, hut⟩

/-- **C3 counterexample** — a progress stream opened on the already-`done`
job `doneJob`, with a queue that delivers nothing (one 60-second timeout):
the first event is indeed the terminal state, yet the stream does NOT
close — it emits a keep-alive and keeps waiting for further events. -/
theorem C3_cex :
    doneJob.status.isTerminal = true ∧
    event_stream doneJob [none] =
      ([SseMsg.data (jsonify_sse doneJob), SseMsg.ping], false) :=
  ⟨rfl, rfl⟩

/-- **C3 amended** — a stream opened after the job reached terminal status
emits that terminal state as its FIRST event, but it closes only once a
terminal snapshot is read from the progress queue: when the queue yields a
terminal event (the usual case — the worker's final `job_update` queued
one) the loop terminates; when it never does, the stream emits a
keep-alive on every 60-second timeout and never closes (C3's
counterexample). -/
theorem C3_amended (init : JobRecord) (gets : List (Option JobRecord))
    (_hinit : init.status.isTerminal = true)
    (hterm : ∃ u, some u ∈ gets ∧ u.status.isTerminal = true) :
    (event_stream init gets).1.head? = some (SseMsg.data (jsonify_sse init)) ∧
    (event_stream init gets).2 = true :=
  ⟨rfl, streamLoop_closes gets hterm⟩

/-- Witness for C3 amended: the queue of the terminal job still holds the
terminal snapshot; the stream re-delivers it and closes. -/
theorem C3_amended_witness :
    doneJob.status.isTerminal = true ∧
    (∃ u, some u ∈ [some doneJob] ∧ u.status.isTerminal = true) ∧
    ((event_stream doneJob [some doneJob]).1.head? =
        some (SseMsg.data (jsonify_sse doneJob)) ∧
     (event_stream doneJob [some doneJob]).2 = true) :=
  ⟨rfl, ⟨doneJob, by simp, rfl⟩,
   C3_amended doneJob [some doneJob] rfl ⟨doneJob, by simp, rfl⟩⟩

/-- **C10** — the SSE serializer removes the `workdir` field from every
event it emits: any two job records that agree on every field except
possibly `workdir` serialize to the identical public event, so a job's
internal storage path is never visible to a progress-stream consumer. -/
theorem C10_workdir_hidden (j1 j2 : JobRecord)
    (hstatus : j1.status = j2.status) (hprogress : j1.progress = j2.progress)
    (hfilename : j1.filename = j2.filename) (herror : j1.error = j2.error)
    (hcreated : j1.created_at = j2.created_at) (htype : j1.type = j2.type)
    (hip : j1.ip = j2.ip) :
    jsonify_sse j1 = jsonify_sse j2 := by
  simp [jsonify_sse, hstatus, hprogress, hfilename, herror, hcreated, htype, hip]

/-- Witness for C10: two records with distinct workdirs, identical
elsewhere, produce the same serialized event. -/
theorem C10_workdir_hidden_witness :
    ({ snap0 with workdir := "secret-a" } : JobRecord).workdir ≠
      ({ snap0 with workdir := "secret-b" } : JobRecord).workdir ∧
    jsonify_sse { snap0 with workdir := "secret-a" } =
      jsonify_sse { snap0 with workdir := "secret-b" } :=
  ⟨by decide,
   C10_workdir_hidden { snap0 with workdir := "secret-a" }
     { snap0 with workdir := "secret-b" } rfl rfl rfl rfl rfl rfl rfl⟩

/-! ### Admission control and the /start route (app.py lines 37-57, 111-196) -/

/-- A parsed `/start` form submission; `none` = form field absent. -/
structure StartRequest where
  url : Option String
  typeField : Option String
  ip : String
deriving DecidableEq, Repr

/-- Python's `str.strip()`: leading and trailing whitespace removed. -/
def pyStrip (s : String) : String :=
  ⟨((s.data.dropWhile Char.isWhitespace).reverse.dropWhile Char.isWhitespace).reverse⟩

/-- `request.form.get("url", "").strip()` (app.py line 115). -/
def urlOf (req : StartRequest) : String := pyStrip (req.url.getD "")

/-- `request.form.get("type", "mp4")` (app.py line 116). -/
def typeOf (req : StartRequest) : String := req.typeField.getD "mp4"

/-- An HTTP response of the `/start` route: the status code and the JSON
body's relevant fields (`jsonify` without an explicit code answers 200). -/
inductive StartResp
  | ok (code : Nat) (job_id : String)
  | err (code : Nat) (msg : String)
deriving DecidableEq, Repr

/-- Everything one call of the decorated `/start` handler does: the
updated `ACTIVE_BY_IP` set, the fallback timer it started (key and
absolute fire time), whether a worker thread was spawned, the created
`JOBS` entry, the job id a fresh progress queue was created for, and the
HTTP response. -/
structure RouteResult where
  active_by_ip : List String
  timer : Option (String × ℤ)
  spawned : Bool
  job : Option (String × JobRecord)
  queueFor : Option String
  resp : StartResp
deriving DecidableEq, Repr

/-- The `/start` route as decorated (app.py lines 111-196):
`maybe_limit("3 per minute")` runs first (`rateLimited` abstracts
Flask-Limiter's verdict), then `single_concurrent` (lines 43-57): a busy
identity is rejected with 429 BEFORE the try block; otherwise the key is
added to `ACTIVE_BY_IP` and the handler body runs, the `finally` clause
starting the 2-second fallback `threading.Timer` in every case — the URL
is validated only after the key was added.  `job_id` is the generated
uuid, `now` the wall clock; the workdir is `TEMP_ROOT / job_id`. -/
def start_route (active : List String) (rateLimited : Bool) (req : StartRequest)
    (job_id : String) (now : ℤ) : RouteResult :=
  if rateLimited then
    { active_by_ip := active, timer := none, spawned := false,
      job := none, queueFor := none, resp := .err 429 "ratelimit exceeded" }
  else if req.ip ∈ active then
    { active_by_ip := active, timer := none, spawned := false,
      job := none, queueFor := none,
      resp := .err 429
        "Another download is already in progress from your IP. Please wait for it to finish." }
  else if urlOf req = "" then
    { active_by_ip := req.ip :: active, timer := some (req.ip, now + 2),
      spawned := false, job := none, queueFor := none,
      resp := .err 400 "Please provide a video URL" }
  else
    { active_by_ip := req.ip :: active, timer := some (req.ip, now + 2),
      spawned := true,
      job := some (job_id, initialJob (typeOf req) ("yt_downloader/" ++ job_id) req.ip now),
      queueFor := some job_id,
      resp := .ok 200 job_id }

/-- **C8 counterexample** — (a) a successful admission answers HTTP 200
(Flask's default for `jsonify(...)` with no explicit code), not 202; (b) a
submission with an empty `url` answers 400 but the per-identity token HAS
been acquired: the IP sits in `ACTIVE_BY_IP` (it is removed only when the
2-second fallback timer fires, no worker having been spawned). -/
theorem C8_cex :
    ((start_route [] false
        { url := some "http://example.com/v", typeField := none, ip := "9.9.9.9" }
        "job1" 0).resp = .ok 200 "job1" ∧ (200 : Nat) ≠ 202) ∧
    ((start_route [] false { url := some "", typeField := none, ip := "9.9.9.9" }
        "job1" 0).resp = .err 400 "Please provide a video URL" ∧
      "9.9.9.9" ∈ (start_route [] false
        { url := some "", typeField := none, ip := "9.9.9.9" } "job1" 0).active_by_ip ∧
      (start_route [] false { url := some "", typeField := none, ip := "9.9.9.9" }
        "job1" 0).spawned = false) := by
  refine ⟨⟨rfl, by decide⟩, rfl, ?_, rfl⟩
  decide

/-- **C8 amended** — the route's complete behavior: 429 when the rate
limiter trips; 429 busy while the same identity is active (no state
touched); otherwise the per-IP token is acquired and the 2-second fallback
timer started in EVERY case, after which an empty/missing trimmed url
yields 400 with no job created and no worker spawned (the token is held
until the timer fires), and a nonempty url yields HTTP 200 — not 202 —
with the job id, a queued job record, a fresh progress queue and a
spawned worker. -/
theorem C8_amended (active : List String) (rateLimited : Bool)
    (req : StartRequest) (job_id : String) (now : ℤ) :
    (rateLimited = true →
      start_route active rateLimited req job_id now =
        { active_by_ip := active, timer := none, spawned := false,
          job := none, queueFor := none, resp := .err 429 "ratelimit exceeded" }) ∧
    (rateLimited = false → req.ip ∈ active →
      start_route active rateLimited req job_id now =
        { active_by_ip := active, timer := none, spawned := false,
          job := none, queueFor := none,
          resp := .err 429
            "Another download is already in progress from your IP. Please wait for it to finish." }) ∧
    (rateLimited = false → req.ip ∉ active → urlOf req = "" →
      start_route active rateLimited req job_id now =
        { active_by_ip := req.ip :: active, timer := some (req.ip, now + 2),
          spawned := false, job := none, queueFor := none,
          resp := .err 400 "Please provide a video URL" }) ∧
    (rateLimited = false → req.ip ∉ active → urlOf req ≠ "" →
      start_route active rateLimited req job_id now =
        { active_by_ip := req.ip :: active, timer := some (req.ip, now + 2),
          spawned := true,
          job := some (job_id,
            initialJob (typeOf req) ("yt_downloader/" ++ job_id) req.ip now),
          queueFor := some job_id,
          resp := .ok 200 job_id }) := by
  refine ⟨?_, ?_, ?_, ?_⟩
  · intro h
    simp [start_route, h]
  · intro h hmem
    simp [start_route, h, hmem]
  · intro h hmem hurl
    simp [start_route, h, hmem, hurl]
  · intro h hmem hurl
    simp [start_route, h, hmem, hurl]

/-! ### The per-identity lock over time (app.py lines 37, 43-57, 188-193) -/

/-- The admission-relevant state over time: the `ACTIVE_BY_IP` set, the
pending 2-second fallback timers (`threading.Timer(2.0, ...discard(key))`,
app.py line 56) and the running workers with the absolute time their
`finally: ACTIVE_BY_IP.discard(ip_key)` (lines 191-193) will run. -/
structure Sys where
  active_by_ip : List String
  timers : List (String × ℤ)
  workers : List (String × ℤ)
deriving DecidableEq, Repr

/-- Fire everything due by time `t`: each due timer and each finishing
worker discards its key from `ACTIVE_BY_IP` (`set.discard` removes the key
whoever inserted it, and is a no-op when absent). -/
def Sys.advanceTo (s : Sys) (t : ℤ) : Sys :=
  let dueKeys :=
    (s.timers.filter (fun p => decide (p.2 ≤ t))).map Prod.fst ++
    (s.workers.filter (fun p => decide (p.2 ≤ t))).map Prod.fst
  { active_by_ip := s.active_by_ip.filter (fun ip => !(dueKeys.contains ip))
    timers := s.timers.filter (fun p => !(decide (p.2 ≤ t)))
    workers := s.workers.filter (fun p => !(decide (p.2 ≤ t))) }

/-- One submission event at absolute time `t`: the discards due by `t`
fire first, then the decorated route runs; when a worker is spawned its
`finally` release will run at time `fin` (the download's duration is
`fin - t`), and the route's fallback timer joins the pending timers. -/
def Sys.submit (s : Sys) (t : ℤ) (req : StartRequest) (job_id : String)
    (fin : ℤ) (rateLimited : Bool) : Sys × RouteResult :=
  let s := s.advanceTo t
  let r := start_route s.active_by_ip rateLimited req job_id t
  ({ active_by_ip := r.active_by_ip
     timers := match r.timer with | some p => p :: s.timers | none => s.timers
     workers := if r.spawned then (req.ip, fin) :: s.workers else s.workers },
   r)

/-- **C1** — the failing trace: identity "a" submits at t=0 and its worker
runs until t=10; the fallback timer — started unconditionally, not only
when the normal release path is skipped — fires at t=2 and discards "a";
a second submission from "a" at t=3 is then ADMITTED (a second worker is
spawned and a 200 response with the new job id returned) while the first
worker is still running (still in the worker list after advancing to
t=3).  The claim, and the decorator's own docstring "Allow only one
active download per client IP at a time", require a 429 rejection here. -/
theorem C1_bug :
    (Sys.submit { active_by_ip := [], timers := [], workers := [] } 0
        { url := some "http://example.com/v", typeField := none, ip := "a" }
        "job1" 10 false).2.resp = .ok 200 "job1" ∧
    ("a", (10 : ℤ)) ∈
      ((Sys.submit { active_by_ip := [], timers := [], workers := [] } 0
          { url := some "http://example.com/v", typeField := none, ip := "a" }
          "job1" 10 false).1.advanceTo 3).workers ∧
    (Sys.submit
        (Sys.submit { active_by_ip := [], timers := [], workers := [] } 0
          { url := some "http://example.com/v", typeField := none, ip := "a" }
          "job1" 10 false).1 3
        { url := some "http://example.com/v", typeField := none, ip := "a" }
        "job2" 13 false).2.resp = .ok 200 "job2" ∧
    (Sys.submit
        (Sys.submit { active_by_ip := [], timers := [], workers := [] } 0
          { url := some "http://example.com/v", typeField := none, ip := "a" }
          "job1" 10 false).1 3
        { url := some "http://example.com/v", typeField := none, ip := "a" }
        "job2" 13 false).2.spawned = true := by
  refine ⟨rfl, by decide, rfl, rfl⟩

/-! ### Global concurrency (C9) -/

/-- The empty admission state at process start. -/
def Sys0 : Sys := { active_by_ip := [], timers := [], workers := [] }

/-- The valid submission each identity of a load test sends. -/
def reqFor (ip : String) : StartRequest :=
  { url := some "http://example.com/v", typeField := none, ip := ip }

/-- A batch of submissions at the same instant `t`, one per identity in
`ips`, each spawning a download that runs until time `fin`. -/
def submitAll (s : Sys) (t : ℤ) (ips : List String) (fin : ℤ) : Sys :=
  ips.foldl (fun s ip => (Sys.submit s t (reqFor ip) ip fin false).1) s

theorem advanceTo_eq_self (s : Sys) (t : ℤ)
    (htimers : ∀ p ∈ s.timers, t < p.2)
    (hworkers : ∀ p ∈ s.workers, t < p.2) :
    s.advanceTo t = s := by
  have ht : s.timers.filter (fun p => decide (p.2 ≤ t)) = [] :=
    List.filter_eq_nil_iff.mpr (fun p hp => by simpa using not_le.mpr (htimers p hp))
  have hw : s.workers.filter (fun p => decide (p.2 ≤ t)) = [] :=
    List.filter_eq_nil_iff.mpr (fun p hp => by simpa using not_le.mpr (hworkers p hp))
  have ht2 : s.timers.filter (fun p => !(decide (p.2 ≤ t))) = s.timers :=
    List.filter_eq_self.mpr (fun p hp => by simpa using not_le.mpr (htimers p hp))
  have hw2 : s.workers.filter (fun p => !(decide (p.2 ≤ t))) = s.workers :=
    List.filter_eq_self.mpr (fun p hp => by simpa using not_le.mpr (hworkers p hp))
  unfold Sys.advanceTo
  simp [ht, hw, ht2, hw2]

/-- **C9 cex** — three simultaneous submissions from three distinct
identities are ALL admitted: three workers are spawned and three
admission tokens are outstanding at once, exceeding (for instance) a
configured global maximum of 2 — no global pool exists in the code. -/
theorem C9_cex :
    (Sys.submit Sys0 0 (reqFor "a") "j1" 10 false).2.spawned = true ∧
    (Sys.submit (Sys.submit Sys0 0 (reqFor "a") "j1" 10 false).1 0
        (reqFor "b") "j2" 10 false).2.spawned = true ∧
    (Sys.submit (Sys.submit (Sys.submit Sys0 0 (reqFor "a") "j1" 10 false).1 0
        (reqFor "b") "j2" 10 false).1 0 (reqFor "c") "j3" 10 false).2.spawned = true ∧
    (Sys.submit (Sys.submit (Sys.submit Sys0 0 (reqFor "a") "j1" 10 false).1 0
        (reqFor "b") "j2" 10 false).1 0
        (reqFor "c") "j3" 10 false).1.active_by_ip.length = 3 ∧
    ¬ (Sys.submit (Sys.submit (Sys.submit Sys0 0 (reqFor "a") "j1" 10 false).1 0
        (reqFor "b") "j2" 10 false).1 0
        (reqFor "c") "j3" 10 false).1.active_by_ip.length ≤ 2 := by
  refine ⟨rfl, rfl, rfl, rfl, by decide⟩

/-- **C9 amended** — the code enforces NO global concurrency bound: under
a simultaneous load of arbitrarily many distinct identities, every
submission is admitted, so the number of outstanding admission tokens
equals the number of distinct identities and grows without limit (only
the per-identity rule holds at admission time). -/
theorem C9_amended (t fin : ℤ) (htf : t < fin) :
    ∀ (ips : List String), ips.Nodup → ∀ (s : Sys),
      (∀ ip ∈ ips, ip ∉ s.active_by_ip) →
      (∀ p ∈ s.timers, t < p.2) →
      (∀ p ∈ s.workers, t < p.2) →
      (submitAll s t ips fin).active_by_ip.length =
        s.active_by_ip.length + ips.length := by
  intro ips
  induction ips with
  | nil =>
    intro _ s _ _ _
    simp [submitAll]
  | cons ip rest ih =>
    intro hnd s hact htimers hworkers
    have hadv : s.advanceTo t = s := advanceTo_eq_self s t htimers hworkers
    have hip : ip ∉ s.active_by_ip := hact ip (List.mem_cons_self ip rest)
    have hurlval : urlOf (reqFor ip) = "http://example.com/v" := rfl
    have hipfield : (reqFor ip).ip = ip := rfl
    have hstep : (Sys.submit s t (reqFor ip) ip fin false).1 =
        { active_by_ip := ip :: s.active_by_ip
          timers := (ip, t + 2) :: s.timers
          workers := (ip, fin) :: s.workers } := by
      unfold Sys.submit
      rw [hadv]
      simp [start_route, hipfield, hurlval, hip]
    have hfold : submitAll s t (ip :: rest) fin =
        submitAll ((Sys.submit s t (reqFor ip) ip fin false).1) t rest fin := rfl
    obtain ⟨hnotmem, hnd2⟩ := List.nodup_cons.mp hnd
    rw [hfold, hstep, ih hnd2
      { active_by_ip := ip :: s.active_by_ip
        timers := (ip, t + 2) :: s.timers
        workers := (ip, fin) :: s.workers }
      (by
        intro q hq
        simp only [List.mem_cons]
        rintro (rfl | hq2)
        · exact hnotmem hq
        · exact hact q (List.mem_cons_of_mem ip hq) hq2)
      (by
        intro p hp
        rcases List.mem_cons.mp hp with rfl | hp2
        · omega
        · exact htimers p hp2)
      (by
        intro p hp
        rcases List.mem_cons.mp hp with rfl | hp2
        · exact htf
        · exact hworkers p hp2)]
    simp only [List.length_cons]
    omega

/-- Witness for C9 amended: identities "a", "b", "c" submitted at t=0 with
downloads running until t=10 leave three tokens outstanding. -/
theorem C9_amended_witness :
    (0 : ℤ) < 10 ∧ (["a", "b", "c"] : List String).Nodup ∧
    (submitAll Sys0 0 ["a", "b", "c"] 10).active_by_ip.length =
      Sys0.active_by_ip.length + (["a", "b", "c"] : List String).length :=
  ⟨by decide, by decide,
   C9_amended 0 10 (by decide) ["a", "b", "c"] (by decide) Sys0
     (by intro ip _; simp [Sys0]) (by intro p hp; simp [Sys0] at hp)
     (by intro p hp; simp [Sys0] at hp)⟩

end YTD
